import Mathlib

/-
Verification of the solana-data-account instruction processor
(`src/program/src/processor.rs`) against its natural-language specification.

The processor is embedded shallowly:
  * account buffers are `List Nat` of byte values,
  * lamport balances are `Nat` with explicit `% 2 ^ 64` overflow checks
    mirroring `u64::checked_add`,
  * the ledger collaborator (rent computation, program-derived-address
    derivation) is an injected record of pure functions,
  * each handler returns a `ProgResult` carrying the final state both on
    success and on failure, so "no mutation before the failing check" is a
    provable statement rather than a modelling artifact.
-/

namespace SolanaData

/-- Little-endian base-256 digits of `n`, padded/truncated to exactly `k`
bytes (borsh serialization of a fixed-size scalar / 32-byte address). -/
def natToLEBytes : Nat → Nat → List Nat
  | 0, _ => []
  | k + 1, n => n % 256 :: natToLEBytes k (n / 256)

/-- Value denoted by a little-endian byte list. -/
def leBytesToNat : List Nat → Nat
  | [] => 0
  | b :: bs => b + 256 * leBytesToNat bs

/-- `state.rs`: `pub const DATA_VERSION: u8 = 0;` -/
def DATA_VERSION : Nat := 0

/-- Modelled from the spec: the metadata record is fixed-size with layout
`status`(1) · `serialization_status`(1) · `authority`(32) · `dynamic`(1) ·
`version`(1) · `data_type`(1) · `bump`(1), hence 38 bytes.  The constant
`METADATA_SIZE` itself lives in the part of `state.rs` missing from `src/`. -/
def METADATA_SIZE : Nat := 38

/-- `state.rs`: lifecycle status of a data account. -/
inductive DataStatusOption where
  | UNINITIALIZED
  | INITIALIZED
  | UPDATED
  | FINALIZED
deriving DecidableEq, Repr, Inhabited

/-- Modelled from the spec: `serialization_status` enum
{UNVERIFIED, VERIFIED}; its Rust definition is in the part of `state.rs`
missing from `src/`. -/
inductive SerializationStatusOption where
  | UNVERIFIED
  | VERIFIED
deriving DecidableEq, Repr, Inhabited

/-- Modelled from the spec: the default `data_type` (`DataTypeOption::CUSTOM`)
used at creation; the enum's Rust definition is missing from `src/`.  The
`data_type` field is modelled as its one-byte tag. -/
def CUSTOM : Nat := 0

/-- Modelled from the spec: the fixed-size metadata record of §3/§6; its Rust
definition (`DataAccountMetadata` in `state.rs`) is missing from `src/`.
Addresses are modelled as `Nat` (the 32-byte value, little-endian). -/
structure DataAccountMetadata where
  data_status : DataStatusOption
  serialization_status : SerializationStatusOption
  authority : Nat
  dynamic : Bool
  version : Nat
  data_type : Nat
  bump_seed : Nat
deriving DecidableEq, Repr, Inhabited

/-- `DataAccountMetadata::new`, the constructor called by Initialize. -/
def DataAccountMetadata.new (data_status : DataStatusOption)
    (serialization_status : SerializationStatusOption) (authority : Nat)
    (dynamic : Bool) (version : Nat) (data_type : Nat) (bump_seed : Nat) :
    DataAccountMetadata :=
  ⟨data_status, serialization_status, authority, dynamic, version, data_type,
    bump_seed⟩

/-- Modelled from the spec: `update_data_type(record, new_type)` "sets
`status=UPDATED` and `data_type=new_type`"; the Rust `set_data_type` method
is in the part of `state.rs` missing from `src/`. -/
def DataAccountMetadata.set_data_type (m : DataAccountMetadata) (t : Nat) :
    DataAccountMetadata :=
  { m with data_status := DataStatusOption.UPDATED, data_type := t }

def statusTag : DataStatusOption → Nat
  | DataStatusOption.UNINITIALIZED => 0
  | DataStatusOption.INITIALIZED => 1
  | DataStatusOption.UPDATED => 2
  | DataStatusOption.FINALIZED => 3

def decodeStatusTag : Nat → Option DataStatusOption
  | 0 => some DataStatusOption.UNINITIALIZED
  | 1 => some DataStatusOption.INITIALIZED
  | 2 => some DataStatusOption.UPDATED
  | 3 => some DataStatusOption.FINALIZED
  | _ => none

def serTag : SerializationStatusOption → Nat
  | SerializationStatusOption.UNVERIFIED => 0
  | SerializationStatusOption.VERIFIED => 1

def decodeSerTag : Nat → Option SerializationStatusOption
  | 0 => some SerializationStatusOption.UNVERIFIED
  | 1 => some SerializationStatusOption.VERIFIED
  | _ => none

def boolByte : Bool → Nat
  | false => 0
  | true => 1

def decodeBoolByte : Nat → Option Bool
  | 0 => some false
  | 1 => some true
  | _ => none

/-- Borsh serialization of the metadata record (spec §6 layout). -/
def encodeMetadata (m : DataAccountMetadata) : List Nat :=
  statusTag m.data_status :: serTag m.serialization_status ::
    (natToLEBytes 32 m.authority ++
      [boolByte m.dynamic, m.version % 256, m.data_type % 256,
        m.bump_seed % 256])

/-- Borsh deserialization (`try_from_slice`) of the metadata record: consumes
the whole input, so the input must be exactly `METADATA_SIZE` = 38 bytes;
enum tags and the `bool` byte must be valid. -/
def decodeMetadata (bs : List Nat) : Option DataAccountMetadata :=
  if bs.all (fun x => x < 256) then
    match bs with
    | s :: ser :: rest =>
      match decodeStatusTag s, decodeSerTag ser, rest.drop 32 with
      | some st, some sst, [d, v, t, b] =>
        match decodeBoolByte d with
        | some dyn =>
          some ⟨st, sst, leBytesToNat (rest.take 32), dyn, v, t, b⟩
        | none => none
      | _, _, _ => none
    | _ => none
  else none

/-- Field normalization performed by an encode/decode round trip. -/
def normMetadata (m : DataAccountMetadata) : DataAccountMetadata :=
  { m with authority := m.authority % 256 ^ 32
           version := m.version % 256
           data_type := m.data_type % 256
           bump_seed := m.bump_seed % 256 }

/-- One account reference (`AccountInfo`): address, transaction flags,
balance and byte buffer. -/
structure AccountInfo where
  key : Nat
  is_signer : Bool
  is_writable : Bool
  lamports : Nat
  data : List Nat
deriving DecidableEq, Repr, Inhabited

/-- The accounts every instruction of this program operates on (the system
program reference carries no state of its own). -/
structure ProgState where
  authority : AccountInfo
  data_account : AccountInfo
  metadata_account : AccountInfo
deriving DecidableEq, Repr, Inhabited

/-- The ledger-runtime collaborator: rent computation
(`Rent::minimum_balance`) and program-derived-address derivation
(`Pubkey::find_program_address` / `Pubkey::create_program_address`), injected
as pure functions per spec §6.  `findProgramAddress` returns the derived
address together with the bump byte. -/
structure Ledger where
  minimumBalance : Nat → Nat
  findProgramAddress : Nat → Nat × Nat
  createProgramAddress : Nat → Nat → Option Nat

/-- `error.rs` (`DataAccountError`, reconstructed from its uses in
`processor.rs` and spec §7), plus the failures surfaced unmodified from the
ledger collaborator: `BorshIoError` (metadata decode/encode), `InvalidSeeds`
(`create_program_address` failure), `ExternalError` (account
creation/transfer failure). -/
inductive DataAccountError where
  | InvalidPDA
  | NotSigner
  | NotWriteable
  | NoAccountLength
  | NotInitialized
  | InvalidAuthority
  | InsufficientSpace
  | Overflow
  | BorshIoError
  | InvalidSeeds
  | ExternalError
deriving DecidableEq, Repr, Inhabited

/-- Outcome of processing one instruction.  A failure carries the state of
the accounts at the moment of the failing check, so "no mutation happened
before the check" is a provable statement; the surrounding runtime then
discards that state (atomicity, spec §5). -/
inductive ProgResult where
  | ok : ProgState → ProgResult
  | fail : DataAccountError → ProgState → ProgResult
deriving DecidableEq, Repr, Inhabited

def ProgResult.stateOf : ProgResult → ProgState
  | ProgResult.ok s => s
  | ProgResult.fail _ s => s

def ProgResult.errOf : ProgResult → Option DataAccountError
  | ProgResult.ok _ => none
  | ProgResult.fail e _ => some e

def ProgResult.isOk : ProgResult → Bool
  | ProgResult.ok _ => true
  | ProgResult.fail _ _ => false

/-- `InitializeDataAccountArgs` as actually consumed by the processor
(spec §6; the record in the stale `state.rs` omits most fields). -/
structure InitializeDataAccountArgs where
  is_created : Bool
  space : Nat
  authority : Nat
  is_dynamic : Bool
deriving DecidableEq, Repr, Inhabited

/-- `UpdateDataAccountArgs` as actually consumed by the processor
(spec §6; authoritative over the simplified record in the stale
`state.rs`). -/
structure UpdateDataAccountArgs where
  offset : Nat
  data : List Nat
  data_type : Nat
  realloc_down : Bool
deriving DecidableEq, Repr, Inhabited

/-- Borsh `serialize(&mut &mut buf[..])`: writes `src` at the start of the
buffer, failing when the buffer is too short. -/
def writeBytes (buf src : List Nat) : Option (List Nat) :=
  if src.length ≤ buf.length then some (src ++ buf.drop src.length) else none

/-- `buf[off .. off + src.length].copy_from_slice(src)`. -/
def writeRange (buf : List Nat) (off : Nat) (src : List Nat) : List Nat :=
  buf.take off ++ src ++ buf.drop (off + src.length)

/-- `AccountInfo::realloc(newLen, false)`: grow (zero-filled) or truncate the
buffer to exactly `newLen` bytes. -/
def reallocData (buf : List Nat) (newLen : Nat) : List Nat :=
  if buf.length ≤ newLen then buf ++ List.replicate (newLen - buf.length) 0
  else buf.take newLen

/-- `u64` overflow bound for `checked_add` on lamport balances. -/
def U64_MOD : Nat := 2 ^ 64

/-- `processor.rs` lines 161-220: the Update handler after all validation
has passed — size policy, metadata re-serialization, resize with balance
top-up/refund, and the final byte write. -/
def updateCore (L : Ledger) (st : ProgState) (args : UpdateDataAccountArgs)
    (account_metadata : DataAccountMetadata) : ProgResult :=
  let old_len := st.data_account.data.length
  let end_len := args.offset + args.data.length
  if ¬account_metadata.dynamic ∧ old_len < end_len then
    ProgResult.fail DataAccountError.InsufficientSpace st
  else
    let new_len :=
      if ¬account_metadata.dynamic then old_len
      else if args.realloc_down then end_len
      else max old_len end_len
    let md2 := account_metadata.set_data_type args.data_type
    match writeBytes st.metadata_account.data (encodeMetadata md2) with
    | none => ProgResult.fail DataAccountError.BorshIoError st
    | some mbytes =>
      let st1 := { st with
        metadata_account := { st.metadata_account with data := mbytes } }
      let resized : Except DataAccountError ProgState :=
        if old_len ≠ new_len then
          let new_space := new_len
          let new_minimum_balance := L.minimumBalance new_space
          if old_len < new_len then
            let lamports_diff :=
              new_minimum_balance - st1.data_account.lamports
            if st1.authority.lamports < lamports_diff then
              Except.error DataAccountError.ExternalError
            else
              Except.ok { st1 with
                authority := { st1.authority with
                  lamports := st1.authority.lamports - lamports_diff }
                data_account := { st1.data_account with
                  lamports := st1.data_account.lamports + lamports_diff
                  data := reallocData st1.data_account.data new_space } }
          else
            let lamports_diff :=
              st1.data_account.lamports - new_minimum_balance
            if st1.authority.lamports + lamports_diff ≥ U64_MOD then
              Except.error DataAccountError.Overflow
            else
              Except.ok { st1 with
                authority := { st1.authority with
                  lamports := st1.authority.lamports + lamports_diff }
                data_account := { st1.data_account with
                  lamports := new_minimum_balance
                  data := reallocData st1.data_account.data new_space } }
        else Except.ok st1
      match resized with
      | Except.error e => ProgResult.fail e st1
      | Except.ok st2 =>
        ProgResult.ok { st2 with
          data_account := { st2.data_account with
            data := writeRange st2.data_account.data args.offset args.data } }

/-- `processor.rs` lines 108-221: the `UpdateDataAccount` arm of
`Processor::process_instruction`. -/
def processUpdate (L : Ledger) (st : ProgState)
    (args : UpdateDataAccountArgs) : ProgResult :=
  if !st.authority.is_signer || !st.data_account.is_signer then
    ProgResult.fail DataAccountError.NotSigner st
  else if !st.authority.is_writable || !st.data_account.is_writable ||
      !st.metadata_account.is_writable then
    ProgResult.fail DataAccountError.NotWriteable st
  else if st.metadata_account.data.length = 0 then
    ProgResult.fail DataAccountError.NoAccountLength st
  else
    match decodeMetadata st.metadata_account.data with
    | none => ProgResult.fail DataAccountError.BorshIoError st
    | some account_metadata =>
      if account_metadata.data_status = DataStatusOption.UNINITIALIZED then
        ProgResult.fail DataAccountError.NotInitialized st
      else if account_metadata.authority ≠ st.authority.key then
        ProgResult.fail DataAccountError.InvalidAuthority st
      else
        match L.createProgramAddress st.data_account.key
            account_metadata.bump_seed with
        | none => ProgResult.fail DataAccountError.InvalidSeeds st
        | some pda =>
          if pda ≠ st.metadata_account.key then
            ProgResult.fail DataAccountError.InvalidPDA st
          else updateCore L st args account_metadata

/-- `processor.rs` lines 34-107: the `InitializeDataAccount` arm.  The two
`create_account` invocations go to the ledger collaborator, which requires
the funder to have signed, a fresh target account (the program-derived
metadata account signs through `invoke_signed` seeds), and a sufficient
funder balance. -/
def processInitialize (L : Ledger) (st : ProgState)
    (args : InitializeDataAccountArgs) : ProgResult :=
  let step1 : Except DataAccountError ProgState :=
    if !args.is_created then
      let space := args.space
      let rent_exemption_amount := L.minimumBalance space
      if !st.authority.is_signer || !st.data_account.is_signer then
        Except.error DataAccountError.ExternalError
      else if st.data_account.data.length ≠ 0 then
        Except.error DataAccountError.ExternalError
      else if st.authority.lamports < rent_exemption_amount then
        Except.error DataAccountError.ExternalError
      else
        Except.ok { st with
          authority := { st.authority with
            lamports := st.authority.lamports - rent_exemption_amount }
          data_account := { st.data_account with
            lamports := st.data_account.lamports + rent_exemption_amount
            data := List.replicate space 0 } }
    else Except.ok st
  match step1 with
  | Except.error e => ProgResult.fail e st
  | Except.ok st1 =>
    let st2 := { st1 with
      data_account := { st1.data_account with
        data := List.replicate st1.data_account.data.length 0 } }
    let fp := L.findProgramAddress st2.data_account.key
    let pda := fp.1
    let bump_seed := fp.2
    if pda ≠ st2.metadata_account.key then
      ProgResult.fail DataAccountError.InvalidPDA st2
    else
      let rent_exemption_amount := L.minimumBalance METADATA_SIZE
      if !st2.authority.is_signer then
        ProgResult.fail DataAccountError.ExternalError st2
      else if st2.metadata_account.data.length ≠ 0 then
        ProgResult.fail DataAccountError.ExternalError st2
      else if st2.authority.lamports < rent_exemption_amount then
        ProgResult.fail DataAccountError.ExternalError st2
      else
        let st3 := { st2 with
          authority := { st2.authority with
            lamports := st2.authority.lamports - rent_exemption_amount }
          metadata_account := { st2.metadata_account with
            lamports := st2.metadata_account.lamports + rent_exemption_amount
            data := List.replicate METADATA_SIZE 0 } }
        let account_metadata := DataAccountMetadata.new
          DataStatusOption.INITIALIZED SerializationStatusOption.UNVERIFIED
          args.authority args.is_dynamic DATA_VERSION CUSTOM bump_seed
        match writeBytes st3.metadata_account.data
            (encodeMetadata account_metadata) with
        | none => ProgResult.fail DataAccountError.BorshIoError st3
        | some md =>
          ProgResult.ok { st3 with
            metadata_account := { st3.metadata_account with data := md } }

/-- `processor.rs` lines 274-290: the Close handler after all validation has
passed — drain the metadata account into the authority and zero it, then
drain the data account into the authority and zero it, both through
`u64::checked_add`. -/
def closeCore (st : ProgState) : ProgResult :=
  if st.authority.lamports + st.metadata_account.lamports ≥ U64_MOD then
    ProgResult.fail DataAccountError.Overflow st
  else
    let st1 := { st with
      authority := { st.authority with
        lamports := st.authority.lamports + st.metadata_account.lamports }
      metadata_account := { st.metadata_account with
        lamports := 0
        data := List.replicate st.metadata_account.data.length 0 } }
    if st1.authority.lamports + st1.data_account.lamports ≥ U64_MOD then
      ProgResult.fail DataAccountError.Overflow st1
    else
      ProgResult.ok { st1 with
        authority := { st1.authority with
          lamports := st1.authority.lamports + st1.data_account.lamports }
        data_account := { st1.data_account with
          lamports := 0
          data := List.replicate st1.data_account.data.length 0 } }

/-- `processor.rs` lines 222-291: the `CloseDataAccount` arm. -/
def processClose (L : Ledger) (st : ProgState) : ProgResult :=
  if !st.authority.is_signer then
    ProgResult.fail DataAccountError.NotSigner st
  else if !st.authority.is_writable || !st.data_account.is_writable ||
      !st.metadata_account.is_writable then
    ProgResult.fail DataAccountError.NotWriteable st
  else if st.data_account.data.length = 0 ∨
      st.metadata_account.data.length = 0 then
    ProgResult.fail DataAccountError.NoAccountLength st
  else
    match decodeMetadata st.metadata_account.data with
    | none => ProgResult.fail DataAccountError.BorshIoError st
    | some account_metadata =>
      if account_metadata.data_status = DataStatusOption.UNINITIALIZED then
        ProgResult.fail DataAccountError.NotInitialized st
      else if account_metadata.authority ≠ st.authority.key then
        ProgResult.fail DataAccountError.InvalidAuthority st
      else
        match L.createProgramAddress st.data_account.key
            account_metadata.bump_seed with
        | none => ProgResult.fail DataAccountError.InvalidSeeds st
        | some pda =>
          if pda ≠ st.metadata_account.key then
            ProgResult.fail DataAccountError.InvalidPDA st
          else closeCore st

/-- The decoded instruction union (`instruction.rs`), with the argument
shapes the processor actually consumes. -/
inductive DataAccountInstruction where
  | InitializeDataAccount : InitializeDataAccountArgs → DataAccountInstruction
  | UpdateDataAccount : UpdateDataAccountArgs → DataAccountInstruction
  | CloseDataAccount : DataAccountInstruction

/-- `Processor::process_instruction`, dispatching on the decoded
instruction. -/
def process_instruction (L : Ledger) (st : ProgState) :
    DataAccountInstruction → ProgResult
  | DataAccountInstruction.InitializeDataAccount args =>
      processInitialize L st args
  | DataAccountInstruction.UpdateDataAccount args => processUpdate L st args
  | DataAccountInstruction.CloseDataAccount => processClose L st

/-- The validations of the Update handler that precede the size policy:
signer and writable flags, an initialized metadata record owned by the
signing authority, and a matching derived metadata address. -/
def passesUpdateChecks (L : Ledger) (st : ProgState)
    (md : DataAccountMetadata) : Prop :=
  st.authority.is_signer = true ∧ st.data_account.is_signer = true ∧
    st.authority.is_writable = true ∧ st.data_account.is_writable = true ∧
    st.metadata_account.is_writable = true ∧
    md.data_status ≠ DataStatusOption.UNINITIALIZED ∧
    md.authority = st.authority.key ∧
    L.createProgramAddress st.data_account.key md.bump_seed =
      some st.metadata_account.key

instance (L : Ledger) (st : ProgState) (md : DataAccountMetadata) :
    Decidable (passesUpdateChecks L st md) := by
  unfold passesUpdateChecks
  infer_instance

/-- The validations of the Close handler that precede the drain. -/
def passesCloseChecks (L : Ledger) (st : ProgState)
    (md : DataAccountMetadata) : Prop :=
  st.authority.is_signer = true ∧ st.authority.is_writable = true ∧
    st.data_account.is_writable = true ∧
    st.metadata_account.is_writable = true ∧
    st.data_account.data.length ≠ 0 ∧
    md.data_status ≠ DataStatusOption.UNINITIALIZED ∧
    md.authority = st.authority.key ∧
    L.createProgramAddress st.data_account.key md.bump_seed =
      some st.metadata_account.key

instance (L : Ledger) (st : ProgState) (md : DataAccountMetadata) :
    Decidable (passesCloseChecks L st md) := by
  unfold passesCloseChecks
  infer_instance

/-- A concrete ledger collaborator for exercising the handlers: rent is one
lamport per byte and the derived address of a data account at address `k`
with bump `b` is `k + 100 + b`, with `b = 1` the bump found first. -/
def LW : Ledger :=
  { minimumBalance := fun n => n
    findProgramAddress := fun k => (k + 101, 1)
    createProgramAddress := fun k b => some (k + 100 + b) }

/-- A dynamic metadata record owned by the authority at address 7. -/
def mdW : DataAccountMetadata :=
  ⟨DataStatusOption.INITIALIZED, SerializationStatusOption.UNVERIFIED, 7,
    true, 0, 0, 1⟩

/-- A non-dynamic metadata record owned by the authority at address 7. -/
def mdWs : DataAccountMetadata :=
  ⟨DataStatusOption.INITIALIZED, SerializationStatusOption.UNVERIFIED, 7,
    false, 0, 0, 1⟩

/-- A well-formed account triple for Update/Close: signing writable
authority 7, signing writable 3-byte dynamic data unit at address 5, and
its metadata record at the derived address 106. -/
def stW : ProgState :=
  { authority := ⟨7, true, true, 100, []⟩
    data_account := ⟨5, true, true, 10, [1, 2, 3]⟩
    metadata_account := ⟨106, false, true, 50, encodeMetadata mdW⟩ }

/-- `stW` with a non-dynamic metadata record. -/
def stWs : ProgState :=
  { stW with metadata_account :=
    { stW.metadata_account with data := encodeMetadata mdWs } }

/-- `stW` with a non-signing authority. -/
def stC3 : ProgState :=
  { stW with authority := { stW.authority with is_signer := false } }

/-- Accounts for Initialize: signing writable authority 7, an already
created data unit at address 5 that is NOT a signer and holds stale bytes,
and an empty metadata account at the derived address 106. -/
def stC4 : ProgState :=
  { authority := ⟨7, true, true, 100, []⟩
    data_account := ⟨5, false, true, 10, [4, 4, 4]⟩
    metadata_account := ⟨106, false, true, 0, []⟩ }

/-- `stC4` with a wrong metadata address. -/
def stC4b : ProgState :=
  { stC4 with metadata_account := { stC4.metadata_account with key := 999 } }

/-- An Update that shrinks the 3-byte unit to 2 bytes. -/
def argsC1 : UpdateDataAccountArgs := ⟨1, [9], 3, true⟩

/-- An Update writing past the end of the 3-byte unit. -/
def argsC2 : UpdateDataAccountArgs := ⟨2, [9, 9], 3, false⟩

/-- An Initialize of an already created unit (`is_created = true`) naming
authority 7 in the payload. -/
def argsC4 : InitializeDataAccountArgs := ⟨true, 0, 7, true⟩

/-- An Initialize of an already created unit whose payload names
authority 2, different from the signer at address 7. -/
def argsC9 : InitializeDataAccountArgs := ⟨true, 0, 2, true⟩

/-- The state produced by the shrinking Update `argsC1` on `stW`. -/
def outC1 : ProgState := (processUpdate LW stW argsC1).stateOf

/-- A metadata record owned by address 8, not by `stW`'s authority 7. -/
def mdC6 : DataAccountMetadata :=
  ⟨DataStatusOption.INITIALIZED, SerializationStatusOption.UNVERIFIED, 8,
    true, 0, 0, 1⟩

/-- `stW` with a metadata record owned by a different authority. -/
def stC6 : ProgState :=
  { stW with metadata_account :=
    { stW.metadata_account with data := encodeMetadata mdC6 } }

/-- The state produced by Initialize `argsC9` on `stC4`. -/
def outC9 : ProgState := (processInitialize LW stC4 argsC9).stateOf

theorem natToLEBytes_length (k : Nat) : ∀ n, (natToLEBytes k n).length = k := by
  induction k with
  | zero => intro n; rfl
  | succ k ih => intro n; simp [natToLEBytes, ih]

theorem natToLEBytes_lt (k : Nat) : ∀ n, ∀ b ∈ natToLEBytes k n, b < 256 := by
  induction k with
  | zero => intro n b hb; simp [natToLEBytes] at hb
  | succ k ih =>
    intro n b hb
    simp only [natToLEBytes, List.mem_cons] at hb
    rcases hb with h | h
    · subst h; exact Nat.mod_lt _ (by norm_num)
    · exact ih _ b h

theorem leBytesToNat_natToLEBytes (k : Nat) :
    ∀ n, leBytesToNat (natToLEBytes k n) = n % 256 ^ k := by
  induction k with
  | zero => intro n; simp [natToLEBytes, leBytesToNat, Nat.mod_one]
  | succ k ih =>
    intro n
    simp only [natToLEBytes, leBytesToNat, ih]
    rw [pow_succ, mul_comm (256 ^ k) 256, Nat.mod_mul]

theorem leBytesToNat_lt (l : List Nat) (h : ∀ b ∈ l, b < 256) :
    leBytesToNat l < 256 ^ l.length := by
  induction l with
  | nil => simp [leBytesToNat]
  | cons b bs ih =>
    have hb : b < 256 := h b (List.mem_cons_self b bs)
    have hbs : leBytesToNat bs < 256 ^ bs.length :=
      ih (fun x hx => h x (List.mem_cons_of_mem b hx))
    simp only [leBytesToNat, List.length_cons, pow_succ]
    calc b + 256 * leBytesToNat bs
        < 256 + 256 * leBytesToNat bs := by omega
      _ = 256 * (leBytesToNat bs + 1) := by ring
      _ ≤ 256 * 256 ^ bs.length := by
          exact Nat.mul_le_mul_left 256 (Nat.succ_le_of_lt hbs)
      _ = 256 ^ bs.length * 256 := by ring

theorem encodeMetadata_length (m : DataAccountMetadata) :
    (encodeMetadata m).length = METADATA_SIZE := by
  simp [encodeMetadata, METADATA_SIZE, natToLEBytes_length]

theorem statusTag_lt (s : DataStatusOption) : statusTag s < 256 := by
  cases s <;> simp [statusTag]

theorem serTag_lt (s : SerializationStatusOption) : serTag s < 256 := by
  cases s <;> simp [serTag]

theorem boolByte_lt (b : Bool) : boolByte b < 256 := by
  cases b <;> simp [boolByte]

theorem decodeStatusTag_statusTag (s : DataStatusOption) :
    decodeStatusTag (statusTag s) = some s := by
  cases s <;> rfl

theorem decodeSerTag_serTag (s : SerializationStatusOption) :
    decodeSerTag (serTag s) = some s := by
  cases s <;> rfl

theorem decodeBoolByte_boolByte (b : Bool) :
    decodeBoolByte (boolByte b) = some b := by
  cases b <;> rfl

theorem drop32_append (l tl : List Nat) (hl : l.length = 32) :
    (l ++ tl).drop 32 = tl := by
  rw [← hl, List.drop_left]

theorem take32_append (l tl : List Nat) (hl : l.length = 32) :
    (l ++ tl).take 32 = l := by
  rw [← hl, List.take_left]

theorem encodeMetadata_bytes (m : DataAccountMetadata) :
    ∀ x ∈ encodeMetadata m, x < 256 := by
  intro x hx
  simp only [encodeMetadata, List.mem_cons, List.mem_append] at hx
  rcases hx with h | h | h | h
  · subst h; exact statusTag_lt _
  · subst h; exact serTag_lt _
  · exact natToLEBytes_lt 32 m.authority x h
  · simp only [List.mem_cons, List.not_mem_nil, or_false] at h
    rcases h with h | h | h | h <;> subst h
    · exact boolByte_lt _
    all_goals exact Nat.mod_lt _ (by norm_num)

/-- Encode-then-decode is the identity up to field normalization. -/
theorem decodeMetadata_encodeMetadata (m : DataAccountMetadata) :
    decodeMetadata (encodeMetadata m) = some (normMetadata m) := by
  have hall : (encodeMetadata m).all (fun x => decide (x < 256)) = true := by
    rw [List.all_eq_true]
    intro x hx
    exact decide_eq_true (encodeMetadata_bytes m x hx)
  have hdrop := drop32_append (natToLEBytes 32 m.authority)
    [boolByte m.dynamic, m.version % 256, m.data_type % 256, m.bump_seed % 256]
    (natToLEBytes_length 32 m.authority)
  have htake := take32_append (natToLEBytes 32 m.authority)
    [boolByte m.dynamic, m.version % 256, m.data_type % 256, m.bump_seed % 256]
    (natToLEBytes_length 32 m.authority)
  unfold decodeMetadata
  unfold encodeMetadata at hall ⊢
  rw [if_pos hall]
  simp only [hdrop, decodeStatusTag_statusTag, decodeSerTag_serTag,
    decodeBoolByte_boolByte, htake, leBytesToNat_natToLEBytes]
  rfl

/-- A successfully decoded buffer has exactly `METADATA_SIZE` bytes, and all
fields of the decoded record lie in their byte ranges. -/
theorem decodeMetadata_spec {bs : List Nat} {m : DataAccountMetadata}
    (h : decodeMetadata bs = some m) :
    bs.length = METADATA_SIZE ∧ m.authority < 256 ^ 32 ∧ m.version < 256 ∧
      m.data_type < 256 ∧ m.bump_seed < 256 := by
  unfold decodeMetadata at h
  split at h
  case isFalse => simp at h
  case isTrue hall =>
    rw [List.all_eq_true] at hall
    split at h
    case h_2 => simp at h
    case h_1 s ser rest =>
      split at h
      case h_2 => simp at h
      case h_1 =>
        rename_i a1 a2 a3 st sst d v t b heq1 heq2 heq3
        split at h
        case h_2 => simp at h
        case h_1 =>
          rename_i a4 dyn heq4
          have hmem : ∀ x ∈ rest, x < 256 := fun x hx =>
            of_decide_eq_true (hall x
              (List.mem_cons_of_mem _ (List.mem_cons_of_mem _ hx)))
          have hrest : rest.length = 36 := by
            have hlen := congrArg List.length heq3
            simp [List.length_drop] at hlen
            omega
          have hvb : ∀ x ∈ [d, v, t, b], x < 256 := fun x hx =>
            hmem x (List.drop_subset 32 rest (heq3.symm ▸ hx))
          have hauth : leBytesToNat (rest.take 32) < 256 ^ 32 := by
            have htk : (rest.take 32).length = 32 := by
              simp [List.length_take, hrest]
            have := leBytesToNat_lt (rest.take 32)
              (fun x hx => hmem x (List.take_subset 32 rest hx))
            rwa [htk] at this
          cases h
          refine ⟨?_, hauth, ?_, ?_, ?_⟩
          · simp only [List.length_cons, METADATA_SIZE]
            omega
          · exact hvb v (by simp)
          · exact hvb t (by simp)
          · exact hvb b (by simp)

/-- Normalization is the identity on any record obtained by decoding. -/
theorem decodeMetadata_norm {bs : List Nat} {m : DataAccountMetadata}
    (h : decodeMetadata bs = some m) : normMetadata m = m := by
  obtain ⟨_, h1, h2, h3, h4⟩ := decodeMetadata_spec h
  simp only [normMetadata, Nat.mod_eq_of_lt h1, Nat.mod_eq_of_lt h2,
    Nat.mod_eq_of_lt h3, Nat.mod_eq_of_lt h4]

theorem writeBytes_exact {buf src : List Nat} (h : buf.length = src.length) :
    writeBytes buf src = some src := by
  unfold writeBytes
  rw [if_pos (le_of_eq h.symm), List.drop_eq_nil_of_le (le_of_eq h)]
  simp

theorem reallocData_length (buf : List Nat) (n : Nat) :
    (reallocData buf n).length = n := by
  unfold reallocData
  split
  · simp only [List.length_append, List.length_replicate]
    omega
  · simp only [List.length_take]
    omega

theorem writeRange_length {buf src : List Nat} {off : Nat}
    (h : off + src.length ≤ buf.length) :
    (writeRange buf off src).length = buf.length := by
  unfold writeRange
  simp only [List.length_append, List.length_take, List.length_drop]
  omega

/-- When the metadata decodes and every validation passes, the Update
handler reduces to its post-validation core. -/
theorem processUpdate_checks (L : Ledger) (st : ProgState)
    (args : UpdateDataAccountArgs) (md : DataAccountMetadata)
    (hdec : decodeMetadata st.metadata_account.data = some md)
    (hc : passesUpdateChecks L st md) :
    processUpdate L st args = updateCore L st args md := by
  obtain ⟨h1, h2, h3, h4, h5, h6, h7, h8⟩ := hc
  have hne : st.metadata_account.data.length ≠ 0 := by
    have := (decodeMetadata_spec hdec).1
    simp only [METADATA_SIZE] at this
    omega
  simp [processUpdate, h1, h2, h3, h4, h5, h6, h7, h8, hne, hdec]

theorem writeRange_realloc_length (buf src : List Nat) (off n : Nat)
    (h : off + src.length ≤ n) :
    (writeRange (reallocData buf n) off src).length = n := by
  have hr := reallocData_length buf n
  rw [writeRange_length (by omega)]
  exact hr

/-- A successful run of the Update core leaves the metadata buffer holding
the re-serialized record (`status=UPDATED`, new `data_type`) and resizes
the data account to exactly the policy length. -/
theorem updateCore_ok_inv {L : Ledger} {st : ProgState}
    {args : UpdateDataAccountArgs} {md : DataAccountMetadata}
    {st' : ProgState}
    (hlen : st.metadata_account.data.length = METADATA_SIZE)
    (hok : updateCore L st args md = ProgResult.ok st') :
    st'.metadata_account.data =
      encodeMetadata (md.set_data_type args.data_type) ∧
    st'.data_account.data.length =
      (if ¬md.dynamic then st.data_account.data.length
       else if args.realloc_down then args.offset + args.data.length
       else max st.data_account.data.length
         (args.offset + args.data.length)) := by
  unfold updateCore at hok
  simp only [] at hok
  rw [show writeBytes st.metadata_account.data
      (encodeMetadata (md.set_data_type args.data_type)) =
      some (encodeMetadata (md.set_data_type args.data_type)) from
    writeBytes_exact (hlen.trans (encodeMetadata_length _).symm)] at hok
  try simp only [] at hok
  by_cases hc0 : (¬md.dynamic = true ∧
      st.data_account.data.length < args.offset + args.data.length)
  · rw [if_pos hc0] at hok
    exact absurd hok (by simp)
  rw [if_neg hc0] at hok
  generalize hN : (if ¬md.dynamic = true then st.data_account.data.length
      else if args.realloc_down = true then args.offset + args.data.length
      else max st.data_account.data.length
        (args.offset + args.data.length)) = N at hok ⊢
  have hend : args.offset + args.data.length ≤ N := by
    subst hN
    by_cases hd : md.dynamic = true
    · by_cases hrd : args.realloc_down = true <;>
        simp [hd, hrd, le_max_right]
    · have hle : args.offset + args.data.length ≤
          st.data_account.data.length := by
        rcases not_and_or.mp hc0 with h | h
        · exact absurd hd h
        · omega
      simp [hd, hle]
  by_cases hc1 : st.data_account.data.length ≠ N
  · rw [if_pos hc1] at hok
    by_cases hc2 : st.data_account.data.length < N
    · rw [if_pos hc2] at hok
      by_cases hc3 : st.authority.lamports <
          L.minimumBalance N - st.data_account.lamports
      · rw [if_pos hc3] at hok
        exact absurd hok (by simp)
      · rw [if_neg hc3] at hok
        try simp only [] at hok
        cases hok
        exact ⟨rfl, writeRange_realloc_length _ _ _ _ hend⟩
    · rw [if_neg hc2] at hok
      by_cases hc3 : st.authority.lamports +
          (st.data_account.lamports - L.minimumBalance N) ≥ U64_MOD
      · rw [if_pos hc3] at hok
        exact absurd hok (by simp)
      · rw [if_neg hc3] at hok
        try simp only [] at hok
        cases hok
        exact ⟨rfl, writeRange_realloc_length _ _ _ _ hend⟩
  · rw [if_neg hc1] at hok
    try simp only [] at hok
    cases hok
    push_neg at hc1
    refine ⟨rfl, ?_⟩
    rw [writeRange_length (by omega)]
    exact hc1

/-- The static size check: a non-dynamic unit with `old_len < end_len`
fails with `InsufficientSpace` before any write. -/
theorem updateCore_static {L : Ledger} {st : ProgState}
    {args : UpdateDataAccountArgs} {md : DataAccountMetadata}
    (hdyn : md.dynamic = false)
    (hlt : st.data_account.data.length < args.offset + args.data.length) :
    updateCore L st args md =
      ProgResult.fail DataAccountError.InsufficientSpace st := by
  unfold updateCore
  rw [if_pos]
  exact ⟨by simp [hdyn], hlt⟩

/-- On a non-dynamic unit the Update core never changes the data account's
length, whether it succeeds or fails. -/
theorem updateCore_static_length {L : Ledger} {st : ProgState}
    {args : UpdateDataAccountArgs} {md : DataAccountMetadata}
    (hdyn : md.dynamic = false) :
    (updateCore L st args md).stateOf.data_account.data.length =
      st.data_account.data.length := by
  by_cases hlt :
      st.data_account.data.length < args.offset + args.data.length
  · rw [updateCore_static hdyn hlt]
    rfl
  · unfold updateCore
    rw [if_neg (by simp [hlt])]
    simp only [hdyn, Bool.not_false]
    cases hwb : writeBytes st.metadata_account.data
        (encodeMetadata (md.set_data_type args.data_type)) with
    | none => simp [ProgResult.stateOf]
    | some mbytes =>
      have hle := le_of_not_lt hlt
      simp [ProgResult.stateOf, writeRange_length hle]

/-- Every run of the Update handler either stops at a failed validation,
leaving the accounts untouched, or reaches the post-validation core with a
decoded metadata record that passed every check. -/
theorem processUpdate_cases (L : Ledger) (st : ProgState)
    (args : UpdateDataAccountArgs) :
    (∃ e, processUpdate L st args = ProgResult.fail e st) ∨
    (∃ md, decodeMetadata st.metadata_account.data = some md ∧
      passesUpdateChecks L st md ∧
      processUpdate L st args = updateCore L st args md) := by
  unfold processUpdate
  by_cases h1 : (!st.authority.is_signer || !st.data_account.is_signer) = true
  · rw [if_pos h1]
    exact Or.inl ⟨_, rfl⟩
  rw [if_neg h1]
  by_cases h2 : (!st.authority.is_writable || !st.data_account.is_writable ||
      !st.metadata_account.is_writable) = true
  · rw [if_pos h2]
    exact Or.inl ⟨_, rfl⟩
  rw [if_neg h2]
  by_cases h3 : st.metadata_account.data.length = 0
  · rw [if_pos h3]
    exact Or.inl ⟨_, rfl⟩
  rw [if_neg h3]
  simp only [Bool.or_eq_true, Bool.not_eq_true', not_or] at h1 h2
  obtain ⟨h1a, h1b⟩ := h1
  obtain ⟨⟨h2a, h2b⟩, h2c⟩ := h2
  rw [Bool.not_eq_false] at h1a h1b h2a h2b h2c
  cases hdec : decodeMetadata st.metadata_account.data with
  | none => exact Or.inl ⟨_, rfl⟩
  | some md =>
    simp only []
    by_cases h4 : md.data_status = DataStatusOption.UNINITIALIZED
    · rw [if_pos h4]
      exact Or.inl ⟨_, rfl⟩
    rw [if_neg h4]
    by_cases h5 : md.authority ≠ st.authority.key
    · rw [if_pos h5]
      exact Or.inl ⟨_, rfl⟩
    rw [if_neg h5]
    push_neg at h5
    cases hpda : L.createProgramAddress st.data_account.key md.bump_seed with
    | none => exact Or.inl ⟨_, rfl⟩
    | some pda =>
      simp only []
      by_cases h6 : pda ≠ st.metadata_account.key
      · rw [if_pos h6]
        exact Or.inl ⟨_, rfl⟩
      rw [if_neg h6]
      push_neg at h6
      subst h6
      exact Or.inr ⟨md, rfl,
        ⟨h1a, h1b, h2a, h2b, h2c, h4, h5, hpda⟩, rfl⟩

/-- A successful Update implies the metadata decoded, every validation
passed, and the core succeeded. -/
theorem processUpdate_ok {L : Ledger} {st : ProgState}
    {args : UpdateDataAccountArgs} {st' : ProgState}
    (hok : processUpdate L st args = ProgResult.ok st') :
    ∃ md, decodeMetadata st.metadata_account.data = some md ∧
      passesUpdateChecks L st md ∧
      updateCore L st args md = ProgResult.ok st' := by
  rcases processUpdate_cases L st args with ⟨e, hfail⟩ | ⟨md, hdec, hc, heq⟩
  · rw [hok] at hfail
    exact absurd hfail (by simp)
  · exact ⟨md, hdec, hc, heq ▸ hok⟩

/-- When the metadata decodes and every validation passes, the Close
handler reduces to its post-validation core. -/
theorem processClose_checks (L : Ledger) (st : ProgState)
    (md : DataAccountMetadata)
    (hdec : decodeMetadata st.metadata_account.data = some md)
    (hc : passesCloseChecks L st md) :
    processClose L st = closeCore st := by
  obtain ⟨h1, h2, h3, h4, h5, h6, h7, h8⟩ := hc
  have hne : st.metadata_account.data.length ≠ 0 := by
    have := (decodeMetadata_spec hdec).1
    simp only [METADATA_SIZE] at this
    omega
  simp [processClose, h1, h2, h3, h4, h5, h6, h7, h8, hne, hdec]

/-- C1: For every Update on a dynamic unit (`metadata.dynamic == true`)
with current length `old_len`, write offset, and data of length `L`
(`end_len = offset + L`): if `realloc_down` is true the unit's final length
is exactly `end_len`, and if `realloc_down` is false the final length is
`max(old_len, end_len)`. -/
theorem C1_update_dynamic_final_length (L : Ledger) (st : ProgState)
    (args : UpdateDataAccountArgs) (st' : ProgState)
    (md : DataAccountMetadata)
    (hdec : decodeMetadata st.metadata_account.data = some md)
    (hdyn : md.dynamic = true)
    (hok : processUpdate L st args = ProgResult.ok st') :
    st'.data_account.data.length =
      if args.realloc_down then args.offset + args.data.length
      else max st.data_account.data.length
        (args.offset + args.data.length) := by
  obtain ⟨md2, hdec2, hc, hcore⟩ := processUpdate_ok hok
  rw [hdec] at hdec2
  injection hdec2 with hmd
  subst hmd
  have hlen := (decodeMetadata_spec hdec).1
  have hinv := (updateCore_ok_inv hlen hcore).2
  rw [if_neg (by simp [hdyn])] at hinv
  exact hinv

theorem C1_witness :
    decodeMetadata stW.metadata_account.data = some mdW ∧
    mdW.dynamic = true ∧
    processUpdate LW stW argsC1 = ProgResult.ok outC1 ∧
    outC1.data_account.data.length =
      (if argsC1.realloc_down then argsC1.offset + argsC1.data.length
       else max stW.data_account.data.length
         (argsC1.offset + argsC1.data.length)) :=
  ⟨by decide, by decide, by decide,
    C1_update_dynamic_final_length LW stW argsC1 outC1 mdW (by decide)
      (by decide) (by decide)⟩

/-- C2: For every Update on a non-dynamic unit (`metadata.dynamic ==
false`) where `old_len < offset + data.length`, the request fails with
`InsufficientSpace` and the unit's bytes and length are unchanged; the
length of a non-dynamic unit never changes on any Update. -/
theorem C2_update_static_insufficient_space (L : Ledger) (st : ProgState)
    (args : UpdateDataAccountArgs) (md : DataAccountMetadata)
    (hdec : decodeMetadata st.metadata_account.data = some md)
    (hdyn : md.dynamic = false) :
    (passesUpdateChecks L st md →
      st.data_account.data.length < args.offset + args.data.length →
      processUpdate L st args =
        ProgResult.fail DataAccountError.InsufficientSpace st) ∧
    (processUpdate L st args).stateOf.data_account.data.length =
      st.data_account.data.length := by
  constructor
  · intro hc hlt
    rw [processUpdate_checks L st args md hdec hc]
    exact updateCore_static hdyn hlt
  · rcases processUpdate_cases L st args with ⟨e, hfail⟩ | ⟨md2, hdec2, hc, heq⟩
    · rw [hfail]
      rfl
    · rw [hdec] at hdec2
      injection hdec2 with hmd
      subst hmd
      rw [heq]
      exact updateCore_static_length hdyn

theorem C2_witness :
    decodeMetadata stWs.metadata_account.data = some mdWs ∧
    mdWs.dynamic = false ∧
    passesUpdateChecks LW stWs mdWs ∧
    stWs.data_account.data.length < argsC2.offset + argsC2.data.length ∧
    processUpdate LW stWs argsC2 =
      ProgResult.fail DataAccountError.InsufficientSpace stWs ∧
    (processUpdate LW stWs argsC2).stateOf.data_account.data.length =
      stWs.data_account.data.length :=
  ⟨by decide, by decide, by decide, by decide,
    (C2_update_static_insufficient_space LW stWs argsC2 mdWs (by decide)
      (by decide)).1 (by decide) (by decide),
    (C2_update_static_insufficient_space LW stWs argsC2 mdWs (by decide)
      (by decide)).2⟩

/-- C3 counterexample: with the data unit a signer, the authority writable
but NOT a signer, Close does not pass the signer check — it fails with
`NotSigner`, because `processor.rs` line 231 checks the authority's signer
flag, not the data unit's. -/
theorem C3_counterexample :
    stC3.data_account.is_signer = true ∧
    stC3.authority.is_signer = false ∧
    stC3.authority.is_writable = true ∧
    processClose LW stC3 =
      ProgResult.fail DataAccountError.NotSigner stC3 := by
  decide

/-- C3 amended: Close's signer validation checks exactly the authority
reference: it fails with `NotSigner`, leaving the accounts untouched,
precisely when the authority is not a signer; the data unit's signer flag
is never consulted by the signer check. -/
theorem C3_close_signer_check (L : Ledger) (st : ProgState) :
    processClose L st = ProgResult.fail DataAccountError.NotSigner st ↔
      st.authority.is_signer = false := by
  constructor
  · intro h
    by_contra hs
    rw [Bool.not_eq_false] at hs
    unfold processClose at h
    rw [if_neg (by simp [hs])] at h
    by_cases h2 : (!st.authority.is_writable || !st.data_account.is_writable
        || !st.metadata_account.is_writable) = true
    · rw [if_pos h2] at h
      simp at h
    rw [if_neg h2] at h
    by_cases h3 : (st.data_account.data.length = 0 ∨
        st.metadata_account.data.length = 0)
    · rw [if_pos h3] at h
      simp at h
    rw [if_neg h3] at h
    cases hdec : decodeMetadata st.metadata_account.data with
    | none =>
      rw [hdec] at h
      simp at h
    | some md =>
      rw [hdec] at h
      simp only [] at h
      by_cases h4 : md.data_status = DataStatusOption.UNINITIALIZED
      · rw [if_pos h4] at h
        simp at h
      rw [if_neg h4] at h
      by_cases h5 : md.authority ≠ st.authority.key
      · rw [if_pos h5] at h
        simp at h
      rw [if_neg h5] at h
      cases hpda : L.createProgramAddress st.data_account.key
          md.bump_seed with
      | none =>
        rw [hpda] at h
        simp at h
      | some pda =>
        rw [hpda] at h
        simp only [] at h
        by_cases h6 : pda ≠ st.metadata_account.key
        · rw [if_pos h6] at h
          simp at h
        rw [if_neg h6] at h
        unfold closeCore at h
        by_cases h7 : st.authority.lamports +
            st.metadata_account.lamports ≥ U64_MOD
        · rw [if_pos h7] at h
          simp at h
        rw [if_neg h7] at h
        simp only [] at h
        split at h <;> simp at h
  · intro h
    unfold processClose
    rw [if_pos (by simp [h])]

theorem C3_amended_witness :
    processClose LW stC3 =
      ProgResult.fail DataAccountError.NotSigner stC3 :=
  (C3_close_signer_check LW stC3).mpr (by decide)

/-- C4 counterexample: an Initialize whose data-unit reference is not a
signer succeeds outright (with `is_created = true`), so the processor does
not require the data-unit to be a signer, and performs no flag check at
all. -/
theorem C4_counterexample :
    stC4.data_account.is_signer = false ∧
    stC4.authority.is_signer = true ∧
    (processInitialize LW stC4 argsC4).isOk = true := by
  decide

/-- C4 amended: the Initialize handler performs no signer or writable
validation of its own — it can only fail with a derivation mismatch
(`InvalidPDA`) or a failure surfaced from the ledger collaborator
(`ExternalError`, `BorshIoError`), never with `NotSigner` or
`NotWriteable`; flag requirements are left to the ledger runtime, and the
data unit is zero-filled before the first check that can fail. -/
theorem C4_initialize_no_flag_checks (L : Ledger) (st : ProgState)
    (args : InitializeDataAccountArgs) (e : DataAccountError)
    (s : ProgState)
    (hfail : processInitialize L st args = ProgResult.fail e s) :
    e = DataAccountError.InvalidPDA ∨ e = DataAccountError.ExternalError ∨
      e = DataAccountError.BorshIoError := by
  unfold processInitialize at hfail
  simp only [] at hfail
  repeat' split at hfail
  all_goals cases hfail <;> try simp
  all_goals rename_i heq
  all_goals repeat' split at heq
  all_goals cases heq <;> simp

theorem C4_amended_witness :
    processInitialize LW stC4b argsC4 =
      ProgResult.fail DataAccountError.InvalidPDA
        ((processInitialize LW stC4b argsC4).stateOf) ∧
    (DataAccountError.InvalidPDA = DataAccountError.InvalidPDA ∨
      DataAccountError.InvalidPDA = DataAccountError.ExternalError ∨
      DataAccountError.InvalidPDA = DataAccountError.BorshIoError) :=
  ⟨by decide,
    C4_initialize_no_flag_checks LW stC4b argsC4 DataAccountError.InvalidPDA
      ((processInitialize LW stC4b argsC4).stateOf) (by decide)⟩

/-- C5: For every Update on a dynamic unit that shrinks
(`new_len < old_len`), the refund transferred from the data unit to the
authority equals `max(0, current_balance - required_minimum)` — expressed
with truncated `Nat` subtraction, which is exactly the clamp-to-zero of
`u64::saturating_sub`, so it is never negative and never wraps — and the
addition of the refund to the authority's balance is overflow-checked:
on overflow the whole request fails with `Overflow` before the resize is
applied, leaving the data account untouched. -/
theorem C5_update_shrink_refund (L : Ledger) (st : ProgState)
    (args : UpdateDataAccountArgs) (md : DataAccountMetadata)
    (hdec : decodeMetadata st.metadata_account.data = some md)
    (hc : passesUpdateChecks L st md)
    (hdyn : md.dynamic = true)
    (hrd : args.realloc_down = true)
    (hshr : args.offset + args.data.length < st.data_account.data.length) :
    (st.authority.lamports +
        (st.data_account.lamports -
          L.minimumBalance (args.offset + args.data.length)) <
        U64_MOD →
      ∃ st', processUpdate L st args = ProgResult.ok st' ∧
        st'.authority.lamports =
          st.authority.lamports +
            (st.data_account.lamports -
              L.minimumBalance (args.offset + args.data.length)) ∧
        st'.data_account.lamports =
          L.minimumBalance (args.offset + args.data.length) ∧
        st'.data_account.data.length =
          args.offset + args.data.length) ∧
    (st.authority.lamports +
        (st.data_account.lamports -
          L.minimumBalance (args.offset + args.data.length)) ≥
        U64_MOD →
      ∃ s, processUpdate L st args =
          ProgResult.fail DataAccountError.Overflow s ∧
        s.data_account = st.data_account) := by
  have hlen := (decodeMetadata_spec hdec).1
  rw [processUpdate_checks L st args md hdec hc]
  unfold updateCore
  simp only []
  rw [show writeBytes st.metadata_account.data
      (encodeMetadata (md.set_data_type args.data_type)) =
      some (encodeMetadata (md.set_data_type args.data_type)) from
    writeBytes_exact (hlen.trans (encodeMetadata_length _).symm)]
  simp only []
  have hc0 : ¬(¬md.dynamic = true ∧
      st.data_account.data.length < args.offset + args.data.length) := by
    simp [hdyn]
  rw [if_neg hc0]
  have hN : (if ¬md.dynamic = true then st.data_account.data.length
      else if args.realloc_down = true then args.offset + args.data.length
      else max st.data_account.data.length
        (args.offset + args.data.length)) =
      args.offset + args.data.length := by
    simp [hdyn, hrd]
  rw [hN]
  have hc1 : st.data_account.data.length ≠
      args.offset + args.data.length := by omega
  rw [if_pos hc1]
  have hc2 : ¬(st.data_account.data.length <
      args.offset + args.data.length) := by omega
  rw [if_neg hc2]
  try simp only []
  constructor
  · intro hlt
    rw [if_neg (by exact fun h => absurd h (by omega))]
    exact ⟨_, rfl, rfl, rfl,
      writeRange_realloc_length _ _ _ _ (le_refl _)⟩
  · intro hge
    rw [if_pos (by exact hge)]
    exact ⟨_, rfl, rfl⟩

theorem C5_witness :
    decodeMetadata stW.metadata_account.data = some mdW ∧
    passesUpdateChecks LW stW mdW ∧
    mdW.dynamic = true ∧
    argsC1.realloc_down = true ∧
    argsC1.offset + argsC1.data.length < stW.data_account.data.length ∧
    (∃ st', processUpdate LW stW argsC1 = ProgResult.ok st' ∧
      st'.authority.lamports =
        stW.authority.lamports +
          (stW.data_account.lamports -
            LW.minimumBalance (argsC1.offset + argsC1.data.length)) ∧
      st'.data_account.lamports =
        LW.minimumBalance (argsC1.offset + argsC1.data.length) ∧
      st'.data_account.data.length =
        argsC1.offset + argsC1.data.length) :=
  ⟨by decide, by decide, by decide, by decide, by decide,
    (C5_update_shrink_refund LW stW argsC1 mdW (by decide) (by decide)
      (by decide) (by decide) (by decide)).1 (by decide)⟩

/-- C6: For every Update where the signing authority's address differs from
`metadata.authority`, the request never succeeds, both the data unit's
bytes and the metadata record's bytes (indeed the whole account state) are
byte-for-byte unchanged, and whenever the preceding flag/initialization
checks pass the reported error is exactly `InvalidAuthority` — the check
precedes every write performed by the handler. -/
theorem C6_update_invalid_authority (L : Ledger) (st : ProgState)
    (args : UpdateDataAccountArgs) (md : DataAccountMetadata)
    (hdec : decodeMetadata st.metadata_account.data = some md)
    (hmis : md.authority ≠ st.authority.key) :
    (processUpdate L st args).stateOf = st ∧
    (processUpdate L st args).isOk = false ∧
    (st.authority.is_signer = true → st.data_account.is_signer = true →
      st.authority.is_writable = true → st.data_account.is_writable = true →
      st.metadata_account.is_writable = true →
      md.data_status ≠ DataStatusOption.UNINITIALIZED →
      processUpdate L st args =
        ProgResult.fail DataAccountError.InvalidAuthority st) := by
  have h38 := (decodeMetadata_spec hdec).1
  have hne : st.metadata_account.data.length ≠ 0 := by
    simp only [METADATA_SIZE] at h38
    omega
  unfold processUpdate
  by_cases h1 : (!st.authority.is_signer || !st.data_account.is_signer) = true
  · rw [if_pos h1]
    refine ⟨rfl, rfl, ?_⟩
    intro ha hb _ _ _ _
    simp [ha, hb] at h1
  rw [if_neg h1]
  by_cases h2 : (!st.authority.is_writable || !st.data_account.is_writable ||
      !st.metadata_account.is_writable) = true
  · rw [if_pos h2]
    refine ⟨rfl, rfl, ?_⟩
    intro _ _ hc hd he _
    simp [hc, hd, he] at h2
  rw [if_neg h2]
  rw [if_neg hne]
  rw [hdec]
  simp only []
  by_cases h4 : md.data_status = DataStatusOption.UNINITIALIZED
  · rw [if_pos h4]
    refine ⟨rfl, rfl, ?_⟩
    intro _ _ _ _ _ h6
    exact absurd h4 h6
  rw [if_neg h4]
  rw [if_pos hmis]
  exact ⟨rfl, rfl, fun _ _ _ _ _ _ => rfl⟩

theorem C6_witness :
    decodeMetadata stC6.metadata_account.data = some mdC6 ∧
    mdC6.authority ≠ stC6.authority.key ∧
    (processUpdate LW stC6 argsC1).stateOf = stC6 ∧
    (processUpdate LW stC6 argsC1).isOk = false ∧
    processUpdate LW stC6 argsC1 =
      ProgResult.fail DataAccountError.InvalidAuthority stC6 :=
  ⟨by decide, by decide,
    (C6_update_invalid_authority LW stC6 argsC1 mdC6 (by decide)
      (by decide)).1,
    (C6_update_invalid_authority LW stC6 argsC1 mdC6 (by decide)
      (by decide)).2.1,
    (C6_update_invalid_authority LW stC6 argsC1 mdC6 (by decide)
      (by decide)).2.2 (by decide) (by decide) (by decide) (by decide)
      (by decide) (by decide)⟩

/-- `set_data_type` preserves normalization when the record was decoded and
the new type fits in one byte. -/
theorem norm_set_data_type {bs : List Nat} {md : DataAccountMetadata}
    (h : decodeMetadata bs = some md) {t : Nat} (ht : t < 256) :
    normMetadata (md.set_data_type t) = md.set_data_type t := by
  obtain ⟨_, h1, h2, _, h4⟩ := decodeMetadata_spec h
  simp [normMetadata, DataAccountMetadata.set_data_type,
    Nat.mod_eq_of_lt h1, Nat.mod_eq_of_lt h2, Nat.mod_eq_of_lt h4,
    Nat.mod_eq_of_lt ht]
  exact h1.trans_eq (by norm_num)

/-- C7: Every successful Update persists a metadata record with
`status = UPDATED` and `data_type` = the `new_type` supplied in the
request, regardless of whether the payload length changed. -/
theorem C7_update_metadata_persisted (L : Ledger) (st : ProgState)
    (args : UpdateDataAccountArgs) (st' : ProgState)
    (hok : processUpdate L st args = ProgResult.ok st')
    (ht : args.data_type < 256) :
    ∃ md, decodeMetadata st.metadata_account.data = some md ∧
      decodeMetadata st'.metadata_account.data =
        some (md.set_data_type args.data_type) ∧
      (md.set_data_type args.data_type).data_status =
        DataStatusOption.UPDATED ∧
      (md.set_data_type args.data_type).data_type = args.data_type := by
  obtain ⟨md, hdec, hc, hcore⟩ := processUpdate_ok hok
  have hlen := (decodeMetadata_spec hdec).1
  have hmeta := (updateCore_ok_inv hlen hcore).1
  refine ⟨md, hdec, ?_, rfl, rfl⟩
  rw [hmeta, decodeMetadata_encodeMetadata, norm_set_data_type hdec ht]

theorem C7_witness :
    processUpdate LW stW argsC1 = ProgResult.ok outC1 ∧
    argsC1.data_type < 256 ∧
    (∃ md, decodeMetadata stW.metadata_account.data = some md ∧
      decodeMetadata outC1.metadata_account.data =
        some (md.set_data_type argsC1.data_type) ∧
      (md.set_data_type argsC1.data_type).data_status =
        DataStatusOption.UPDATED ∧
      (md.set_data_type argsC1.data_type).data_type = argsC1.data_type) :=
  ⟨by decide, by decide,
    C7_update_metadata_persisted LW stW argsC1 outC1 (by decide)
      (by decide)⟩

/-- C8: Every successful Close transfers the metadata record's entire
balance to the authority and zeroes all metadata bytes, then transfers the
data unit's entire balance to the authority and zeroes all unit bytes, in
that order; both balance additions to the authority are overflow-checked:
an overflow of the first addition fails the request with `Overflow` before
anything is mutated, and an overflow of either addition makes the whole
request fail with `Overflow`. -/
theorem C8_close_drains (L : Ledger) (st : ProgState)
    (md : DataAccountMetadata)
    (hdec : decodeMetadata st.metadata_account.data = some md)
    (hc : passesCloseChecks L st md) :
    (st.authority.lamports + st.metadata_account.lamports ≥ U64_MOD →
      processClose L st = ProgResult.fail DataAccountError.Overflow st) ∧
    (st.authority.lamports + st.metadata_account.lamports +
        st.data_account.lamports ≥ U64_MOD →
      (processClose L st).errOf = some DataAccountError.Overflow) ∧
    (st.authority.lamports + st.metadata_account.lamports +
        st.data_account.lamports < U64_MOD →
      processClose L st = ProgResult.ok
        { authority := { st.authority with
            lamports := st.authority.lamports +
              st.metadata_account.lamports + st.data_account.lamports }
          data_account := { st.data_account with
            lamports := 0
            data := List.replicate st.data_account.data.length 0 }
          metadata_account := { st.metadata_account with
            lamports := 0
            data :=
              List.replicate st.metadata_account.data.length 0 } }) := by
  rw [processClose_checks L st md hdec hc]
  unfold closeCore
  try simp only []
  refine ⟨?_, ?_, ?_⟩
  · intro h7
    rw [if_pos h7]
  · intro h8
    by_cases h7 : st.authority.lamports + st.metadata_account.lamports ≥
        U64_MOD
    · rw [if_pos h7]
      rfl
    · rw [if_neg h7]
      try simp only []
      rw [if_pos h8]
      rfl
  · intro hlt
    rw [if_neg (by omega)]
    try simp only []
    rw [if_neg (by omega)]

theorem C8_witness :
    decodeMetadata stW.metadata_account.data = some mdW ∧
    passesCloseChecks LW stW mdW ∧
    stW.authority.lamports + stW.metadata_account.lamports +
      stW.data_account.lamports < U64_MOD ∧
    processClose LW stW = ProgResult.ok
      { authority := { stW.authority with
          lamports := stW.authority.lamports +
            stW.metadata_account.lamports + stW.data_account.lamports }
        data_account := { stW.data_account with
          lamports := 0
          data := List.replicate stW.data_account.data.length 0 }
        metadata_account := { stW.metadata_account with
          lamports := 0
          data :=
            List.replicate stW.metadata_account.data.length 0 } } :=
  ⟨by decide, by decide, by decide,
    (C8_close_drains LW stW mdW (by decide) (by decide)).2.2 (by decide)⟩

/-- A successful Initialize writes the serialized record built by
`DataAccountMetadata::new` from the payload's fields into the metadata
account. -/
theorem processInitialize_ok_metadata {L : Ledger} {st : ProgState}
    {args : InitializeDataAccountArgs} {st' : ProgState}
    (hok : processInitialize L st args = ProgResult.ok st') :
    ∃ bump, st'.metadata_account.data =
      encodeMetadata (DataAccountMetadata.new DataStatusOption.INITIALIZED
        SerializationStatusOption.UNVERIFIED args.authority args.is_dynamic
        DATA_VERSION CUSTOM bump) := by
  unfold processInitialize at hok
  simp only [] at hok
  repeat' split at hok
  all_goals cases hok
  rename_i mdbytes heq
  rw [writeBytes_exact (by simp [encodeMetadata_length])] at heq
  injection heq with heq
  exact ⟨_, heq.symm⟩

/-- C9 counterexample: Initialize stores the payload's `authority` field
(here address 2), not the address of the signer that performed the
creation (address 7): `processor.rs` line 98 passes `args.authority`, not
`authority.key`, to `DataAccountMetadata::new`. -/
theorem C9_counterexample :
    stC4.authority.is_signer = true ∧
    stC4.authority.key = 7 ∧
    argsC9.authority = 2 ∧
    (processInitialize LW stC4 argsC9).isOk = true ∧
    (decodeMetadata outC9.metadata_account.data).map
      (fun m => m.authority) = some 2 ∧
    (2 : Nat) ≠ 7 := by
  decide

/-- C9 amended: for every successful Initialize, the stored
`metadata.authority` equals the `authority` field supplied in the request
payload (which the processor never compares against the signer), and no
subsequent successful Update changes `metadata.authority`. -/
theorem C9_metadata_authority_from_args :
    (∀ (L : Ledger) (st : ProgState) (args : InitializeDataAccountArgs)
        (st' : ProgState),
      processInitialize L st args = ProgResult.ok st' →
      args.authority < 256 ^ 32 →
      (decodeMetadata st'.metadata_account.data).map
        (fun m => m.authority) = some args.authority) ∧
    (∀ (L : Ledger) (st : ProgState) (args : UpdateDataAccountArgs)
        (st' : ProgState) (md : DataAccountMetadata),
      decodeMetadata st.metadata_account.data = some md →
      processUpdate L st args = ProgResult.ok st' →
      (decodeMetadata st'.metadata_account.data).map
        (fun m => m.authority) = some md.authority) := by
  constructor
  · intro L st args st' hok hlt
    obtain ⟨bump, hmeta⟩ := processInitialize_ok_metadata hok
    rw [hmeta, decodeMetadata_encodeMetadata]
    simp only [Option.map_some', Option.some.injEq, normMetadata,
      DataAccountMetadata.new]
    exact Nat.mod_eq_of_lt (lt_of_lt_of_eq hlt (by norm_num))
  · intro L st args st' md hdec hok
    obtain ⟨md2, hdec2, hc, hcore⟩ := processUpdate_ok hok
    rw [hdec] at hdec2
    injection hdec2 with hmd
    subst hmd
    have hlen := (decodeMetadata_spec hdec).1
    have h1 := (decodeMetadata_spec hdec).2.1
    rw [(updateCore_ok_inv hlen hcore).1, decodeMetadata_encodeMetadata]
    simp only [Option.map_some', Option.some.injEq, normMetadata,
      DataAccountMetadata.set_data_type]
    exact Nat.mod_eq_of_lt (lt_of_lt_of_eq h1 (by norm_num))

theorem C9_amended_witness :
    (processInitialize LW stC4 argsC9 = ProgResult.ok outC9 ∧
      argsC9.authority < 256 ^ 32 ∧
      (decodeMetadata outC9.metadata_account.data).map
        (fun m => m.authority) = some argsC9.authority) ∧
    (decodeMetadata stW.metadata_account.data = some mdW ∧
      processUpdate LW stW argsC1 = ProgResult.ok outC1 ∧
      (decodeMetadata outC1.metadata_account.data).map
        (fun m => m.authority) = some mdW.authority) :=
  ⟨⟨by decide, by decide,
    C9_metadata_authority_from_args.1 LW stC4 argsC9 outC9 (by decide)
      (by decide)⟩,
   ⟨by decide, by decide,
    C9_metadata_authority_from_args.2 LW stW argsC1 outC1 mdW (by decide)
      (by decide)⟩⟩

/-- C10: Every Initialize unconditionally zero-fills the data unit's
entire byte buffer before writing metadata — in particular when
`is_created` is true, so any pre-existing contents of a caller-supplied,
already-created data unit are erased; the zero-fill is visible in the final
account state of every outcome of the handler. -/
theorem C10_initialize_zero_fills (L : Ledger) (st : ProgState)
    (args : InitializeDataAccountArgs)
    (hic : args.is_created = true) :
    (processInitialize L st args).stateOf.data_account.data =
      List.replicate st.data_account.data.length 0 := by
  unfold processInitialize
  simp only []
  rw [if_neg (show ¬((!args.is_created) = true) from by simp [hic])]
  try simp only []
  repeat' split
  all_goals rfl

theorem C10_witness :
    argsC4.is_created = true ∧
    stC4.data_account.data = [4, 4, 4] ∧
    (processInitialize LW stC4 argsC4).stateOf.data_account.data =
      List.replicate stC4.data_account.data.length 0 :=
  ⟨by decide, by decide,
    C10_initialize_zero_fills LW stC4 argsC4 (by decide)⟩

end SolanaData

